import Mathlib

/-!
Shallow embedding of the webOS build dashboard (`app.py`) and proofs about it.

The Python program shells out to OS commands and reads the filesystem; here the
outside world (subprocess outcomes, filesystem contents, the process table) is
passed explicitly as data, and each Python function becomes a pure Lean
function of that data.  Python string primitives used by the program
(`strip`, `split`, `startswith`, `lower`, substring membership, `join`) are
modelled character-by-character with the semantics of the Python methods.
-/

namespace BuildWebOS

/-! ### Python string primitives -/

/-- Whitespace characters recognised by the Python `str.strip()` method. -/
def pyIsSpace (c : Char) : Bool :=
  c == ' ' || c == '\t' || c == '\n' || c == '\r' || c == '\x0b' || c == '\x0c'

/-- Drop characters satisfying `p` from both ends of a character list. -/
def dropEnds (p : Char → Bool) (l : List Char) : List Char :=
  ((l.dropWhile p).reverse.dropWhile p).reverse

/-- Python `s.strip()`: remove leading and trailing whitespace. -/
def pyStrip (s : String) : String :=
  ⟨dropEnds pyIsSpace s.data⟩

/-- Python `s.strip(c)` for a single character `c`: remove every leading and
trailing occurrence of `c`. -/
def pyStripChar (c : Char) (s : String) : String :=
  ⟨dropEnds (· == c) s.data⟩

/-- Python `s.startswith(p)`. -/
def pyStartswith (s p : String) : Bool :=
  p.data.isPrefixOf s.data

/-- Helper for `pySplitChar`: accumulates the current field in reverse. -/
def splitCharAux (c : Char) : List Char → List Char → List String
  | [], acc => [⟨acc.reverse⟩]
  | x :: xs, acc =>
      if x == c then ⟨acc.reverse⟩ :: splitCharAux c xs []
      else splitCharAux c xs (x :: acc)

/-- Python `s.split(c)` for a single separator character: always returns at
least one field, and one extra field per occurrence of `c`. -/
def pySplitChar (s : String) (c : Char) : List String :=
  splitCharAux c s.data []

/-- Python `s.lower()` (ASCII letters, which is all the program compares). -/
def pyLower (s : String) : String :=
  ⟨s.data.map Char.toLower⟩

/-- Python `needle in hay` substring membership. -/
def pyContains (hay needle : String) : Bool :=
  (List.range (hay.data.length + 1)).any fun i =>
    needle.data.isPrefixOf (hay.data.drop i)

/-- Python truthiness of a string: true iff non-empty. -/
def pyTruthy (s : String) : Bool :=
  !s.data.isEmpty

/-! ### CommandRunner (`run_command`) -/

/-- Outcome of the underlying `subprocess.run` call: normal completion with a
return code and captured streams, a `TimeoutExpired`, or any other exception
carrying its message. -/
inductive ExecOutcome where
  | completed (returncode : Int) (stdout stderr : String)
  | timeoutExpired
  | raised (message : String)
deriving DecidableEq

/-- The dictionary `run_command` returns. -/
structure CommandResult where
  success : Bool
  stdout : String
  stderr : String
  returncode : Int
deriving DecidableEq

/-- Embedding of `run_command`: the `try` body turns a completed process into a
result keyed on `returncode == 0`; the two `except` arms produce the fixed
timeout result and the generic failure result. -/
def run_command : ExecOutcome → CommandResult
  | .completed rc out err =>
      { success := rc == 0, stdout := out, stderr := err, returncode := rc }
  | .timeoutExpired =>
      { success := false, stdout := "", stderr := "Command timed out", returncode := -1 }
  | .raised msg =>
      { success := false, stdout := "", stderr := msg, returncode := -1 }

/-! ### GitInspector (`get_git_info`) -/

/-- The dictionary `get_git_info` returns. -/
structure GitInfo where
  branch : String
  commit : String
  dirty : Bool
  status : String
deriving DecidableEq

/-- Embedding of `get_git_info`, parameterised by the outcomes of its three
`run_command` calls (branch, commit, short status). -/
def get_git_info (branchRun commitRun statusRun : ExecOutcome) : GitInfo :=
  let branch_result := run_command branchRun
  let commit_result := run_command commitRun
  let status_result := run_command statusRun
  { branch := if branch_result.success then pyStrip branch_result.stdout else "unknown"
    commit := if commit_result.success then pyStrip commit_result.stdout else "unknown"
    dirty := if status_result.success then pyTruthy (pyStrip status_result.stdout) else false
    status := if status_result.success then pyStrip status_result.stdout else "" }

/-- Python `s.endswith(p)`. -/
def pyEndswith (s p : String) : Bool :=
  p.data.isSuffixOf s.data

/-- Lexicographic less-or-equal on character lists by code point, the order
Python uses when `list.sort` compares string keys. -/
def leChars : List Char → List Char → Bool
  | [], _ => true
  | _ :: _, [] => false
  | a :: as, b :: bs =>
      if a < b then true
      else if b < a then false
      else leChars as bs

/-- Python `s <= t` on strings: lexicographic by code point. -/
def pyStrLe (s t : String) : Bool :=
  leChars s.data t.data

/-! ### BuildStatusReader (`get_build_status`) -/

/-- One file inside a machine directory of the deploy tree: its name, its
`st_size`, and `datetime.fromtimestamp(st_mtime).isoformat()` as a string. -/
structure FileEntry where
  name : String
  size : Nat
  modified : String
deriving DecidableEq

/-- One entry of `deploy_dir.iterdir()`: its name, whether it is a directory,
and the files it contains. -/
structure MachineDir where
  name : String
  isDir : Bool
  entries : List FileEntry
deriving DecidableEq

/-- State of the `conf/local.conf` file: absent, present but raising on read,
or readable as a list of lines. -/
inductive ConfFile where
  | missing
  | unreadable
  | readable (lines : List String)
deriving DecidableEq

/-- The parts of the filesystem `get_build_status` inspects: existence of the
`oe-init-build-env` marker, the `conf/local.conf` file, existence of the
`BUILD` directory, and the `BUILD/deploy/images` tree (`none` when the deploy
directory does not exist). -/
structure FS where
  oeInitExists : Bool
  localConf : ConfFile
  buildDirExists : Bool
  deployImages : Option (List MachineDir)
deriving DecidableEq

/-- One element of the `builds` list assembled by `get_build_status`. -/
structure BuildArtifact where
  machine : String
  image : String
  size : Nat
  modified : String
deriving DecidableEq

/-- Embedding of the `for line in f` scan of `local.conf`: on the first line
whose stripped form starts with `MACHINE` and which splits on `=` into more
than one part, take part 1, strip whitespace, then double quotes, then single
quotes, and stop; a matching line without `=` is passed over and the scan
continues. -/
def extractMachine : List String → Option String
  | [] => none
  | line :: rest =>
      if pyStartswith (pyStrip line) "MACHINE" then
        match pySplitChar line '=' with
        | _ :: p1 :: _ => some (pyStripChar '\'' (pyStripChar '"' (pyStrip p1)))
        | _ => extractMachine rest
      else extractMachine rest

/-- Artifacts contributed by one machine directory: each `*.wic` file becomes
a record of machine name, image name, size and modification time. -/
def machineArtifacts (d : MachineDir) : List BuildArtifact :=
  (d.entries.filter fun e => pyEndswith e.name ".wic").map fun e =>
    { machine := d.name, image := e.name, size := e.size, modified := e.modified }

/-- Insert an artifact into a list that is already in descending `modified`
order, placing it before the first element whose key is less or equal; used to
model the stable descending sort. -/
def insertByModifiedDesc (x : BuildArtifact) : List BuildArtifact → List BuildArtifact
  | [] => [x]
  | y :: ys =>
      if pyStrLe y.modified x.modified then x :: y :: ys
      else y :: insertByModifiedDesc x ys

/-- Embedding of `builds.sort(key=lambda x: x["modified"], reverse=True)`: the
stable sort of the list in descending order of the `modified` string, realised
as an insertion sort (insertion sort and Python timsort compute the same
function, namely the unique stable sort for the given key order). -/
def sortByModifiedDesc (l : List BuildArtifact) : List BuildArtifact :=
  l.foldr insertByModifiedDesc []

/-- The dictionary `get_build_status` returns. -/
structure BuildStatus where
  configured : Bool
  machine : Option String
  builds : List BuildArtifact
  last_build : Option BuildArtifact
deriving DecidableEq

/-- Machine extraction stage of `get_build_status`: `local.conf` is only read
when the `oe-init-build-env` marker exists; a missing file or a read exception
leaves the field `None`. -/
def machineOf (fs : FS) : Option String :=
  if fs.oeInitExists then
    match fs.localConf with
    | .readable lines => extractMachine lines
    | _ => none
  else none

/-- Artifact collection stage of `get_build_status`: when `BUILD` and
`BUILD/deploy/images` exist, append the `*.wic` files of each machine
subdirectory of the deploy tree in iteration order. -/
def collectedArtifacts (fs : FS) : List BuildArtifact :=
  if fs.buildDirExists then
    match fs.deployImages with
    | some dirs =>
        (dirs.filter MachineDir.isDir).foldl (fun acc d => acc ++ machineArtifacts d) []
    | none => []
  else []

/-- Final `builds` list: the collected list is sorted (descending by
`modified`) only when non-empty, mirroring the `if status["builds"]:` guard
before the sort. -/
def finalBuilds (c : List BuildArtifact) : List BuildArtifact :=
  if c.isEmpty then c else sortByModifiedDesc c

/-- Embedding of `get_build_status`: `configured` mirrors the existence of the
marker file; `machine` is extracted from `local.conf` only when the marker
exists, with missing or unreadable files swallowed to `none`; `builds`
collects `*.wic` files of the machine subdirectories of the deploy tree in
iteration order and, when non-empty, sorts them by `modified` descending;
`last_build` is `builds[0]` when the list is non-empty, else `None`. -/
def get_build_status (fs : FS) : BuildStatus :=
  { configured := fs.oeInitExists
    machine := machineOf fs
    builds := finalBuilds (collectedArtifacts fs)
    last_build := (finalBuilds (collectedArtifacts fs)).head? }

/-! ### ProcessInspector (`get_qemu_processes`) -/

/-- One process as seen by `psutil.process_iter`: the requested attributes,
plus whether reading them succeeds (a process that exited mid-enumeration or
denies access raises and is skipped). -/
structure RawProc where
  pid : Nat
  name : String
  cmdline : List String
  create_time : String
  accessible : Bool
deriving DecidableEq

/-- The dictionary appended for a matching process. -/
structure ProcessInfo where
  pid : Nat
  name : String
  cmdline : String
  started : String
deriving DecidableEq

/-- Entry built for one matching process: the command line is joined with
single spaces, and a falsy (empty) cmdline becomes the empty string. -/
def procEntry (p : RawProc) : ProcessInfo :=
  { pid := p.pid
    name := p.name
    cmdline := if p.cmdline.isEmpty then "" else String.intercalate " " p.cmdline
    started := p.create_time }

/-- Embedding of `get_qemu_processes`, parameterised by the process table the
enumeration observes: inaccessible processes are skipped, and a process is
kept iff its lowercased name contains `qemu`. -/
def get_qemu_processes : List RawProc → List ProcessInfo
  | [] => []
  | p :: ps =>
      if p.accessible then
        if pyContains (pyLower p.name) "qemu" then
          procEntry p :: get_qemu_processes ps
        else get_qemu_processes ps
      else get_qemu_processes ps

/-- Embedding of the `/api/qemu/list` handler body: it calls
`get_qemu_processes()` twice, once for the `processes` field and once (a
second, independent enumeration) for the `count` field, so each call gets its
own snapshot of the process table. -/
def api_qemu_list (table1 table2 : List RawProc) : List ProcessInfo × Nat :=
  (get_qemu_processes table1, (get_qemu_processes table2).length)

/-! ### DocRenderer (`api_docs`) -/

/-- Outcome of an operation that yields a string or raises with a message
(used for the file read and for the markdown conversion). -/
inductive ReadOutcome where
  | ok (content : String)
  | raised (message : String)
deriving DecidableEq

/-- Response of the `/api/docs/<filename>` handler: HTTP status plus the JSON
body fields that can occur. -/
structure DocResponse where
  status : Nat
  error : Option String
  filename : Option String
  content : Option String
  format : Option String
deriving DecidableEq

/-- Embedding of `api_docs`, parameterised by whether the resolved path
exists, the outcome of reading it, and the markdown converter (which may
raise): a missing file short-circuits to 404; a read or conversion exception
becomes 500 with the message; otherwise `.md` files are converted to HTML and
anything else is returned verbatim as text. -/
def api_docs (docExists : Bool) (readRun : ReadOutcome)
    (render : String → ReadOutcome) (filename : String) : DocResponse :=
  if !docExists then
    { status := 404, error := some "Documentation file not found"
      filename := none, content := none, format := none }
  else
    match readRun with
    | .raised e =>
        { status := 500, error := some e, filename := none, content := none, format := none }
    | .ok content =>
        if pyEndswith filename ".md" then
          match render content with
          | .ok html =>
              { status := 200, error := none, filename := some filename
                content := some html, format := some "html" }
          | .raised e =>
              { status := 500, error := some e, filename := none, content := none, format := none }
        else
          { status := 200, error := none, filename := some filename
            content := some content, format := some "text" }

/-! ### Spec-worded variant for the machine extraction (refinement check) -/

/-- Machine extraction exactly as the specification words it, for comparison
with `extractMachine` taken from the source: on the first line whose trimmed
content starts with `MACHINE`, the value is the whole substring after the
FIRST `=` of the line (the remaining split fields joined back with `=`),
trimmed and with surrounding quotes stripped. -/
def extractMachineSpecWorded : List String → Option String
  | [] => none
  | line :: rest =>
      if pyStartswith (pyStrip line) "MACHINE" then
        match pySplitChar line '=' with
        | _ :: p1 :: ps =>
            some (pyStripChar '\'' (pyStripChar '"'
              (pyStrip (String.intercalate "=" (p1 :: ps)))))
        | _ => extractMachineSpecWorded rest
      else extractMachineSpecWorded rest

/-- Test for the line that assigns the machine, used to characterise
`extractMachine`: the trimmed line starts with `MACHINE` and the line contains
at least one `=`. -/
def isMachineLine (l : String) : Bool :=
  pyStartswith (pyStrip l) "MACHINE" && decide (1 < (pySplitChar l '=').length)

/-- Value taken from a machine-assigning line: field 1 of the split on `=`
(the text between the first and the second `=`, or everything after the `=`
when there is only one), stripped of whitespace, then of double quotes, then
of single quotes. -/
def machineLineValue (l : String) : String :=
  pyStripChar '\'' (pyStripChar '"' (pyStrip ((pySplitChar l '=').getD 1 "")))

/-! ### Concrete fixtures used by witnesses and counterexamples -/

/-- Filesystem with both example artifacts of the specification: the qemux86
image is older, the raspberrypi4 image newer, listed in that iteration
order. -/
def fsTwoArtifacts : FS :=
  { oeInitExists := true
    localConf := .readable ["MACHINE = \"raspberrypi4\""]
    buildDirExists := true
    deployImages := some
      [{ name := "qemux86", isDir := true
         entries := [{ name := "webos-image.wic", size := 1024
                       modified := "2025-01-01T00:00:00" }] },
       { name := "raspberrypi4", isDir := true
         entries := [{ name := "webos-image.wic", size := 2048
                       modified := "2025-03-01T00:00:00" }] }] }

/-- Filesystem whose marker file is absent but whose other contents would
otherwise produce a machine. -/
def fsUnconfigured : FS :=
  { oeInitExists := false
    localConf := .readable ["MACHINE = \"qemux86\""]
    buildDirExists := false
    deployImages := none }

/-- Configuration lines whose machine assignment contains a second `=` inside
the quoted value. -/
def confLinesMultiEq : List String :=
  ["MACHINE = \"a=b\""]

/-- Configured filesystem reading `confLinesMultiEq`. -/
def fsMultiEq : FS :=
  { oeInitExists := true
    localConf := .readable confLinesMultiEq
    buildDirExists := false
    deployImages := none }

/-- Configuration lines with a comment line before the machine assignment of
the specification example. -/
def confLinesExample : List String :=
  ["# local configuration", "MACHINE = \"raspberrypi4-64\""]

/-- Configured filesystem reading `confLinesExample`. -/
def fsConfExample : FS :=
  { oeInitExists := true
    localConf := .readable confLinesExample
    buildDirExists := false
    deployImages := none }

/-- A process named bash, accessible. -/
def bashProc : RawProc :=
  { pid := 101, name := "bash", cmdline := ["bash"]
    create_time := "2025-01-01T00:00:00", accessible := true }

/-- A QEMU emulator process, accessible. -/
def qemuProc : RawProc :=
  { pid := 202, name := "qemu-system-x86_64"
    cmdline := ["qemu-system-x86_64", "-m", "1024"]
    create_time := "2025-01-01T00:01:00", accessible := true }

end BuildWebOS

namespace BuildWebOS

/-! ### Helper lemmas -/

/-- Lexicographic boolean comparison of character lists agrees with the list
order underlying the `String` linear order. -/
theorem leChars_iff : ∀ l1 l2 : List Char, leChars l1 l2 = true ↔ ¬ l2 < l1
  | [], l2 => by
      refine iff_of_true rfl fun h => ?_
      cases h
  | a :: as, [] => by
      rw [leChars]
      refine iff_of_false (by simp) fun hn => hn (List.nil_lt_cons a as)
  | a :: as, b :: bs => by
      rw [leChars]
      by_cases hab : a < b
      · rw [if_pos hab]
        refine iff_of_true rfl fun h => ?_
        cases h with
        | cons h => exact absurd hab (lt_irrefl _)
        | rel h => exact absurd hab (lt_asymm h)
      · rw [if_neg hab]
        by_cases hba : b < a
        · rw [if_pos hba]
          refine iff_of_false (by simp) fun hn => hn (List.Lex.rel hba)
        · rw [if_neg hba]
          rw [leChars_iff as bs]
          have heq : a = b := le_antisymm (not_lt.mp hba) (not_lt.mp hab)
          subst heq
          refine not_congr ?_
          constructor
          · exact fun h => List.Lex.cons h
          · intro h
            cases h with
            | cons h => exact h
            | rel h => exact absurd h (lt_irrefl a)

/-- The embedded Python string comparison agrees with the `String` linear
order of the library. -/
theorem pyStrLe_iff_le (s t : String) : pyStrLe s t = true ↔ s ≤ t := by
  rw [String.le_iff_toList_le, ← not_lt]
  exact leChars_iff s.data t.data

/-- Elements of the insertion result are the inserted artifact or prior
elements. -/
theorem mem_insertByModifiedDesc {z x : BuildArtifact} :
    ∀ {l : List BuildArtifact}, z ∈ insertByModifiedDesc x l → z = x ∨ z ∈ l := by
  intro l
  induction l with
  | nil =>
      intro h
      rw [insertByModifiedDesc] at h
      exact Or.inl (List.mem_singleton.mp h)
  | cons y ys ih =>
      intro h
      rw [insertByModifiedDesc] at h
      by_cases hc : pyStrLe y.modified x.modified = true
      · rw [if_pos hc] at h
        rcases List.mem_cons.mp h with h1 | h2
        · exact Or.inl h1
        · exact Or.inr h2
      · rw [if_neg hc] at h
        rcases List.mem_cons.mp h with h1 | h2
        · exact Or.inr (h1 ▸ List.mem_cons_self y ys)
        · rcases ih h2 with h3 | h4
          · exact Or.inl h3
          · exact Or.inr (List.mem_cons_of_mem _ h4)

/-- Inserting into a list that is pairwise descending by `modified` keeps it
pairwise descending. -/
theorem pairwise_insertByModifiedDesc {x : BuildArtifact} :
    ∀ {l : List BuildArtifact},
      l.Pairwise (fun a b => b.modified ≤ a.modified) →
      (insertByModifiedDesc x l).Pairwise (fun a b => b.modified ≤ a.modified) := by
  intro l
  induction l with
  | nil =>
      intro _
      simp [insertByModifiedDesc]
  | cons y ys ih =>
      intro hp
      rw [List.pairwise_cons] at hp
      obtain ⟨hy, hys⟩ := hp
      rw [insertByModifiedDesc]
      by_cases hc : pyStrLe y.modified x.modified = true
      · rw [if_pos hc]
        have hyx : y.modified ≤ x.modified := (pyStrLe_iff_le _ _).mp hc
        refine List.pairwise_cons.mpr ⟨?_, List.pairwise_cons.mpr ⟨hy, hys⟩⟩
        intro z hz
        rcases List.mem_cons.mp hz with h1 | h2
        · exact h1 ▸ hyx
        · exact le_trans (hy z h2) hyx
      · rw [if_neg hc]
        have hxy : x.modified ≤ y.modified :=
          le_of_not_le fun hle => hc ((pyStrLe_iff_le _ _).mpr hle)
        refine List.pairwise_cons.mpr ⟨?_, ih hys⟩
        intro z hz
        rcases mem_insertByModifiedDesc hz with h1 | h2
        · exact h1 ▸ hxy
        · exact hy z h2

/-- The sorting stage always yields a list pairwise descending by
`modified`. -/
theorem pairwise_sortByModifiedDesc (l : List BuildArtifact) :
    (sortByModifiedDesc l).Pairwise (fun a b => b.modified ≤ a.modified) := by
  induction l with
  | nil => simp [sortByModifiedDesc]
  | cons x xs ih => exact pairwise_insertByModifiedDesc ih

/-- Every `builds` list produced by the final stage is pairwise descending by
`modified`. -/
theorem pairwise_finalBuilds (c : List BuildArtifact) :
    (finalBuilds c).Pairwise (fun a b => b.modified ≤ a.modified) := by
  cases c with
  | nil => simp [finalBuilds, sortByModifiedDesc]
  | cons x xs =>
      rw [finalBuilds]
      simp only [List.isEmpty_cons, Bool.false_eq_true, if_false]
      exact pairwise_sortByModifiedDesc (x :: xs)

/-- Insertion permutes: the result holds the new artifact and the old
elements. -/
theorem perm_insertByModifiedDesc (x : BuildArtifact) :
    ∀ l : List BuildArtifact, List.Perm (insertByModifiedDesc x l) (x :: l)
  | [] => List.Perm.refl _
  | y :: ys => by
      rw [insertByModifiedDesc]
      by_cases hc : pyStrLe y.modified x.modified = true
      · rw [if_pos hc]
      · rw [if_neg hc]
        exact (List.Perm.cons y (perm_insertByModifiedDesc x ys)).trans
          (List.Perm.swap x y ys)

/-- The sorting stage permutes the collected list. -/
theorem perm_sortByModifiedDesc : ∀ l : List BuildArtifact,
    List.Perm (sortByModifiedDesc l) l
  | [] => List.Perm.refl _
  | x :: xs =>
      (perm_insertByModifiedDesc x (sortByModifiedDesc xs)).trans
        (List.Perm.cons x (perm_sortByModifiedDesc xs))

/-- The final `builds` list is a permutation of the collected artifacts. -/
theorem perm_finalBuilds (c : List BuildArtifact) : List.Perm (finalBuilds c) c := by
  cases c with
  | nil => exact List.Perm.refl _
  | cons x xs =>
      rw [finalBuilds]
      simp only [List.isEmpty_cons, Bool.false_eq_true, if_false]
      exact perm_sortByModifiedDesc (x :: xs)

/-- Characterisation of the `local.conf` scan: it returns the value of the
first line that passes `isMachineLine`. -/
theorem extractMachine_eq_find (lines : List String) :
    extractMachine lines = (lines.find? isMachineLine).map machineLineValue := by
  induction lines with
  | nil => rfl
  | cons line rest ih =>
      rw [extractMachine]
      by_cases h1 : pyStartswith (pyStrip line) "MACHINE" = true
      · rw [if_pos h1]
        cases hs : pySplitChar line '=' with
        | nil =>
            have hml : ¬ isMachineLine line = true := by
              simp [isMachineLine, hs]
            rw [List.find?_cons_of_neg _ hml]
            exact ih
        | cons p0 tail =>
            cases tail with
            | nil =>
                have hml : ¬ isMachineLine line = true := by
                  simp [isMachineLine, hs]
                rw [List.find?_cons_of_neg _ hml]
                exact ih
            | cons p1 ps =>
                have hml : isMachineLine line = true := by
                  simp only [isMachineLine, hs, h1, Bool.true_and, decide_eq_true_eq,
                    List.length_cons]
                  omega
                rw [List.find?_cons_of_pos _ hml]
                simp [machineLineValue, hs]
      · rw [if_neg h1]
        have hml : ¬ isMachineLine line = true := by
          simp only [isMachineLine, Bool.and_eq_true, decide_eq_true_eq, not_and]
          intro hcontra
          exact absurd hcontra h1
        rw [List.find?_cons_of_neg _ hml]
        exact ih

/-- C1: on a command whose execution exceeds the 30-second timeout,
`run_command` returns `success = false`, empty stdout, stderr exactly
`"Command timed out"`, and exit code `-1`. -/
theorem run_command_timeout :
    run_command ExecOutcome.timeoutExpired =
      { success := false, stdout := "", stderr := "Command timed out", returncode := -1 } :=
  rfl

/-- C7: any execution failure other than a timeout is caught and converted
into `success = false` with the exception message in stderr and exit code
`-1`; the function is total, so no exception propagates to the caller. -/
theorem run_command_raised (msg : String) :
    run_command (ExecOutcome.raised msg) =
      { success := false, stdout := "", stderr := msg, returncode := -1 } :=
  rfl

/-- C3: `get_git_info` reports `dirty = true` exactly when the status command
succeeded and its trimmed stdout is non-empty; in particular `dirty` is false
whenever the status command fails. -/
theorem get_git_info_dirty (branchRun commitRun statusRun : ExecOutcome) :
    (get_git_info branchRun commitRun statusRun).dirty = true ↔
      ((run_command statusRun).success = true ∧
        pyStrip (run_command statusRun).stdout ≠ "") := by
  unfold get_git_info
  by_cases h : (run_command statusRun).success = true
  · simp only [h, if_pos rfl, pyTruthy, true_and]
    constructor
    · intro hne
      intro hcontra
      rw [hcontra] at hne
      simp at hne
    · intro hne
      have : (pyStrip (run_command statusRun).stdout).data ≠ [] := by
        intro hd
        apply hne
        cases hstr : pyStrip (run_command statusRun).stdout with
        | mk d => rw [hstr] at hd; simp at hd; rw [hd]
      simp [List.isEmpty_iff, this]
  · simp only [h]
    simp only [Bool.not_eq_true] at h
    simp [h]

/-- C5: `get_build_status` reports `configured = true` exactly when the
`oe-init-build-env` marker file exists, independently of every other part of
the filesystem state. -/
theorem get_build_status_configured_iff (fs : FS) :
    (get_build_status fs).configured = true ↔ fs.oeInitExists = true :=
  Iff.rfl

/-- C10: whenever `get_build_status` reports `configured = false`, it also
reports `machine = none`: the configuration file is only consulted under the
marker-file check. -/
theorem not_configured_machine_none (fs : FS)
    (h : (get_build_status fs).configured = false) :
    (get_build_status fs).machine = none := by
  have h2 : fs.oeInitExists = false := h
  show machineOf fs = none
  unfold machineOf
  rw [h2]
  simp

/-- Witness for C10: a filesystem without the marker file but with a readable
machine line still yields `machine = none`. -/
theorem not_configured_machine_none_witness :
    (get_build_status fsUnconfigured).configured = false ∧
    (get_build_status fsUnconfigured).machine = none :=
  ⟨rfl, not_configured_machine_none fsUnconfigured rfl⟩

/-- C4: `get_build_status` returns `builds` pairwise descending by `modified`
(newest first) and `last_build` equal to the head of that list, or `none` when
it is empty; in particular, with the qemux86 artifact modified earlier and the
raspberrypi4 artifact modified later, the raspberrypi4 artifact is listed
first and equals `last_build`. -/
theorem get_build_status_builds_sorted :
    (∀ fs : FS,
      (get_build_status fs).builds.Pairwise (fun a b => b.modified ≤ a.modified) ∧
      List.Perm (get_build_status fs).builds (collectedArtifacts fs) ∧
      (get_build_status fs).last_build = (get_build_status fs).builds.head?) ∧
    (get_build_status fsTwoArtifacts).builds.map BuildArtifact.machine =
      ["raspberrypi4", "qemux86"] ∧
    (get_build_status fsTwoArtifacts).last_build =
      some { machine := "raspberrypi4", image := "webos-image.wic"
             size := 2048, modified := "2025-03-01T00:00:00" } := by
  refine ⟨fun fs => ⟨pairwise_finalBuilds (collectedArtifacts fs),
    perm_finalBuilds (collectedArtifacts fs), rfl⟩, by decide, by decide⟩

/-- C2 counterexample: with the single configuration line `MACHINE = "a=b"`
the code yields machine `a` (field between the first and the second equals
sign, quotes stripped), while the claim — which takes the substring after the
first equals sign — predicts `a=b`; so the claim as stated fails at this
input. -/
theorem machine_extraction_counterexample :
    (get_build_status fsMultiEq).machine = some "a" ∧
    extractMachineSpecWorded confLinesMultiEq = some "a=b" ∧
    (get_build_status fsMultiEq).machine ≠ extractMachineSpecWorded confLinesMultiEq := by
  refine ⟨by decide, by decide, by decide⟩

/-- C2 amended: for every readable configuration file of a configured build,
`machine` is the value of the first line whose trimmed content starts with
`MACHINE` and which contains an equals sign; the value is the split field
between the first and the second equals sign (everything after it when there
is only one), trimmed and stripped of surrounding double quotes and then
single quotes; if no such line exists, or the file is missing or unreadable,
`machine` is null. -/
theorem machine_extraction_amended (fs : FS) (h : fs.oeInitExists = true) :
    (∀ lines, fs.localConf = ConfFile.readable lines →
      (get_build_status fs).machine =
        (lines.find? isMachineLine).map machineLineValue) ∧
    (fs.localConf = ConfFile.unreadable → (get_build_status fs).machine = none) ∧
    (fs.localConf = ConfFile.missing → (get_build_status fs).machine = none) := by
  refine ⟨?_, ?_, ?_⟩
  · intro lines hread
    show machineOf fs = _
    unfold machineOf
    rw [h, hread]
    simp [extractMachine_eq_find]
  · intro hread
    show machineOf fs = none
    unfold machineOf
    rw [h, hread]
    rfl
  · intro hread
    show machineOf fs = none
    unfold machineOf
    rw [h, hread]
    rfl

/-- Witness for the amended C2: the specification example line yields
`machine = "raspberrypi4-64"`. -/
theorem machine_extraction_amended_witness :
    (get_build_status fsConfExample).machine =
      (confLinesExample.find? isMachineLine).map machineLineValue ∧
    (get_build_status fsConfExample).machine = some "raspberrypi4-64" :=
  ⟨(machine_extraction_amended fsConfExample rfl).1 confLinesExample rfl, by decide⟩

/-- C6: `get_qemu_processes` returns exactly the accessible processes whose
name contains the case-insensitive substring qemu, each with its command-line
arguments joined by single spaces into one string; in particular a process
named bash is excluded and one named qemu-system-x86_64 is included. -/
theorem get_qemu_processes_spec :
    (∀ procs : List RawProc,
      get_qemu_processes procs =
        (procs.filter fun p => p.accessible && pyContains (pyLower p.name) "qemu").map
          procEntry) ∧
    get_qemu_processes [bashProc, qemuProc] = [procEntry qemuProc] ∧
    (procEntry qemuProc).cmdline = "qemu-system-x86_64 -m 1024" := by
  refine ⟨?_, by decide, by decide⟩
  intro procs
  induction procs with
  | nil => rfl
  | cons p ps ih =>
      rw [get_qemu_processes]
      by_cases ha : p.accessible = true
      · by_cases hq : pyContains (pyLower p.name) "qemu" = true
        · rw [if_pos ha, if_pos hq]
          simp [List.filter_cons, ha, hq, ih]
        · rw [if_pos ha, if_neg hq]
          simp [List.filter_cons, ha, hq, ih]
      · rw [if_neg ha]
        simp [List.filter_cons, ha, ih]

/-- C9: the `count` field of `/api/qemu/list` equals the length of the
`processes` field whenever the two independent process enumerations of the
handler observe the same process table, and can differ when the table changes
between them. -/
theorem api_qemu_list_count_spec :
    (∀ table : List RawProc,
      (api_qemu_list table table).2 = (api_qemu_list table table).1.length) ∧
    (api_qemu_list [qemuProc] []).2 ≠ (api_qemu_list [qemuProc] []).1.length := by
  exact ⟨fun table => rfl, by decide⟩

/-- C8: when the resolved documentation file does not exist, the handler
returns HTTP 404 with body error `Documentation file not found`, and this
outcome is distinct from the 500 status used for read or conversion
errors. -/
theorem api_docs_not_found (readRun : ReadOutcome) (render : String → ReadOutcome)
    (filename : String) (e : String) :
    api_docs false readRun render filename =
      { status := 404, error := some "Documentation file not found"
        filename := none, content := none, format := none } ∧
    (api_docs false readRun render filename).status ≠ 500 ∧
    (api_docs true (ReadOutcome.raised e) render filename).status = 500 := by
  refine ⟨rfl, ?_, rfl⟩
  show (404 : Nat) ≠ 500
  decide

end BuildWebOS
